import Mathlib

/-!
Shallow embedding of the `blogicum` blog application (`blog/models.py`,
`blog/views.py`) in Lean 4.

The relational store is modelled as explicit lists of records; Django
querysets become list pipelines (`filter`, a stable sort for `order_by`,
`map` for `annotate`); `get_object_or_404` becomes an `Option`-returning
lookup, `none` standing for the 404 response; views that may mutate the
store return the response together with the new store state.

Machine-level details without semantic content for the claims
(`select_related` eager joins, pagination, template rendering) are not
modelled.
-/

/-- A timestamp, as Django's `DateTimeField` value: a calendar day plus a
time of day (seconds within the day).  Django's `__date` lookup truncates
a datetime to its `day` component. -/
structure DateTime where
  day : Nat
  sec : Nat
deriving DecidableEq, Repr

/-- Full datetime comparison, as Django's `__lte` lookup on a
`DateTimeField`: lexicographic on (day, time). -/
def DateTime.le (a b : DateTime) : Bool :=
  Nat.blt a.day b.day || (a.day == b.day && Nat.ble a.sec b.sec)

/-- Django's `pub_date__date__lte=value` lookup with a datetime `value`:
the `__date` transform truncates the field to its date, and
`DateField.get_prep_value` truncates the datetime operand to its date as
well, so only the `day` components are compared. -/
def DateTime.dateLe (a b : DateTime) : Bool :=
  Nat.ble a.day b.day

/-- `django.contrib.auth` user record (`User` in `blog/models.py`). -/
structure User where
  id : Nat
  username : String
  first_name : String
  last_name : String
  email : String
deriving DecidableEq, Repr

/-- `Category(PublishedModel, DateModel)` from `blog/models.py`. -/
structure Category where
  id : Nat
  title : String
  description : String
  slug : String
  is_published : Bool
  created_at : DateTime
deriving DecidableEq, Repr

/-- `Location(PublishedModel, DateModel)` from `blog/models.py`. -/
structure Location where
  id : Nat
  name : String
  is_published : Bool
  created_at : DateTime
deriving DecidableEq, Repr

/-- `Post(PublishedModel, DateModel)` from `blog/models.py`.  Foreign
keys are stored as record ids; `category` and `location` are nullable
(`null=True`), matching `on_delete=SET_NULL`. -/
structure Post where
  id : Nat
  title : String
  text : String
  pub_date : DateTime
  author : Nat
  location : Option Nat
  category : Option Nat
  image : String
  is_published : Bool
  created_at : DateTime
deriving DecidableEq, Repr

/-- `Comment(PublishedModel, DateModel)` from `blog/models.py`. -/
structure Comment where
  id : Nat
  text : String
  post : Nat
  author : Nat
  is_published : Bool
  created_at : DateTime
deriving DecidableEq, Repr

/-- The relational store backing the application. -/
structure DB where
  users : List User
  categories : List Category
  locations : List Location
  posts : List Post
  comments : List Comment
deriving DecidableEq, Repr

/-- Primary keys (and the `unique=True` columns `Category.slug` and
`User.username`) are unique, as the schema guarantees. -/
def DB.WellFormed (db : DB) : Prop :=
  (db.users.map User.id).Nodup ∧
  (db.users.map User.username).Nodup ∧
  (db.categories.map Category.id).Nodup ∧
  (db.categories.map Category.slug).Nodup ∧
  (db.posts.map Post.id).Nodup ∧
  (db.comments.map Comment.id).Nodup

instance (db : DB) : Decidable db.WellFormed := by
  unfold DB.WellFormed; infer_instance

/-- `Count('comments')` for one post: the number of comments whose
`post` foreign key references it. -/
def commentCount (db : DB) (p : Post) : Nat :=
  (db.comments.filter (fun c => c.post == p.id)).length

/-- The `order_by('-pub_date')` comparison: newest first. -/
def pubDateDesc (a b : Post) : Prop :=
  DateTime.le b.pub_date a.pub_date = true

instance : DecidableRel pubDateDesc := by
  unfold pubDateDesc; infer_instance

/-- The `order_by('created_at')` comparison (the `Comment.Meta` default
ordering): oldest first. -/
def createdAsc (a b : Comment) : Prop :=
  DateTime.le a.created_at b.created_at = true

instance : DecidableRel createdAsc := by
  unfold createdAsc; infer_instance

/-- `order_by('-pub_date')`: sort by publish datetime, newest first.
(SQL `ORDER BY` fixes the ordering only up to ties; a stable sort
realizes it.) -/
def sortByPubDateDesc (l : List Post) : List Post :=
  List.insertionSort pubDateDesc l

/-- The `Comment.Meta` default ordering applied by the related manager:
sort by creation datetime, oldest first. -/
def sortByCreatedAsc (l : List Comment) : List Comment :=
  List.insertionSort createdAsc l

/-- `category__is_published=True`: the related-field lookup joins the
post to its category (a null `category` joins nothing) and tests the
category's flag. -/
def categoryIsPublished (db : DB) (p : Post) : Bool :=
  match p.category with
  | none => false
  | some cid =>
    match db.categories.find? (fun c => c.id == cid) with
    | none => false
    | some c => c.is_published

namespace PostQuerySet

/-- `PostQuerySet.annotated` (`models.py` 64-67):
`order_by('-pub_date').annotate(comment_count=Count('comments'))`.
Each record is paired with its annotated `comment_count`. -/
def annotated (db : DB) (qs : List Post) : List (Post × Nat) :=
  (sortByPubDateDesc qs).map (fun p => (p, commentCount db p))

/-- The filter of `PostQuerySet.published` (`models.py` 70-74):
`is_published=True, pub_date__date__lte=timezone.now(),
category__is_published=True`.  Note the `__date__lte` lookup compares
date components only. -/
def publishedFilter (db : DB) (now : DateTime) (p : Post) : Bool :=
  p.is_published && p.pub_date.dateLe now && categoryIsPublished db p

/-- `PostQuerySet.published` (`models.py` 69-74): filter by the public
visibility predicate, then `.annotated()`.  (`select_related` only
prefetches joins and has no semantic effect on the result set.) -/
def published (db : DB) (now : DateTime) (qs : List Post) : List (Post × Nat) :=
  annotated db (qs.filter (publishedFilter db now))

end PostQuerySet

/-- `PostsListView.get_queryset` (`views.py` 63-71): start from
`Post.published` (the manager applying `PostQuerySet.published` to all
posts), then `.filter(is_published=True, pub_date__lte=timezone.now())`,
then `.order_by('-pub_date').annotate(comment_count=...)`.  The final
`order_by`/`annotate` determine the resulting ordering and annotation. -/
def PostsListView.get_queryset (db : DB) (now : DateTime) : List (Post × Nat) :=
  PostQuerySet.annotated db
    (((db.posts.filter (PostQuerySet.publishedFilter db now)).filter
      (fun p => p.is_published && p.pub_date.le now)))

/-- `CategoryPostsView.get_queryset` (`views.py` 82-87):
`get_object_or_404(Category, slug=category_slug)` (no publication
filter), then `Post.objects.filter(category=category, is_published=True,
pub_date__lte=timezone.now())` annotated and ordered by `-pub_date`.
`none` is the 404 outcome. -/
def CategoryPostsView.get_queryset (db : DB) (now : DateTime) (slug : String) :
    Option (List (Post × Nat)) :=
  match db.categories.find? (fun c => c.slug == slug) with
  | none => none
  | some cat =>
    some (PostQuerySet.annotated db
      (db.posts.filter
        (fun p => p.category == some cat.id && p.is_published && p.pub_date.le now)))

/-- The page built by `CategoryPostsView.get`: either a 404 or the feed
plus the category placed in the template context. -/
inductive CategoryResponse where
  | notFound
  | page (feed : List (Post × Nat)) (category : Category)
deriving DecidableEq, Repr

/-- `CategoryPostsView` request handling: `ListView.get` evaluates
`get_queryset` (its `get_object_or_404` may raise 404), then
`get_context_data` (`views.py` 89-98) runs
`get_object_or_404(Category, slug=category_slug, is_published=True)`,
which raises 404 for an unpublished category before any page is
rendered. -/
def CategoryPostsView.get (db : DB) (now : DateTime) (slug : String) :
    CategoryResponse :=
  match CategoryPostsView.get_queryset db now slug with
  | none => .notFound
  | some feed =>
    match db.categories.find? (fun c => c.slug == slug && c.is_published) with
    | none => .notFound
    | some cat => .page feed cat

/-- `ProfileListView.get_queryset` (`views.py` 166-173):
`get_object_or_404(User, username=...)`, then all of
`author.posts` ordered by `-pub_date` and annotated with
`comment_count`.  No visibility filter is applied and the requesting
identity is never consulted. -/
def ProfileListView.get_queryset (db : DB) (username : String) :
    Option (List (Post × Nat)) :=
  match db.users.find? (fun u => u.username == username) with
  | none => none
  | some author =>
    some (PostQuerySet.annotated db
      (db.posts.filter (fun p => p.author == author.id)))

/-- The comment list placed in the detail-page context by
`PostDetailView.get_context_data` (`views.py` 150-156):
`self.object.comments.select_related('author')` — the reverse relation
restricted to this post, with no explicit `order_by`, hence the
`Comment.Meta` default ordering `('created_at',)` (oldest first). -/
def PostDetailView.context_comments (db : DB) (pk : Nat) : List Comment :=
  sortByCreatedAsc (db.comments.filter (fun c => c.post == pk))

/-- Outcome of a mutating request: the HTTP-level effect the view
returns.  `notFound` is a 404 page, `forbidden` the `PermissionDenied`
403 page raised by `UserPassesTestMixin.handle_no_permission` for an
authenticated user, `redirectDetail pk` the `redirect('blog:post_detail',
pk=pk)` response, and `success` the post-mutation redirect to the
view's `get_success_url`. -/
inductive MutResponse where
  | notFound
  | forbidden
  | redirectDetail (pk : Nat)
  | success
deriving DecidableEq, Repr

/-- `on_delete=CASCADE` from `Comment.post`: deleting a post removes it
and every comment referencing it. -/
def Post.delete (db : DB) (pk : Nat) : DB :=
  { db with
    posts := db.posts.filter (fun p => p.id != pk),
    comments := db.comments.filter (fun c => c.post != pk) }

/-- `on_delete=SET_NULL` from `Post.category`: deleting a category
removes it and nulls the `category` reference of every post that held
it, leaving the posts themselves in place. -/
def Category.delete (db : DB) (cid : Nat) : DB :=
  { db with
    categories := db.categories.filter (fun c => c.id != cid),
    posts := db.posts.map
      (fun p => if p.category == some cid then { p with category := none } else p) }

/-- `PostUpdateView` (`views.py` 107-118) handling a request by the
authenticated user `userId` on the post `pk`, where `edit` is the
update the bound `PostForm` would apply on success.  `dispatch` fetches
the object (404 via `get_object_or_404` semantics if absent), redirects
a non-author to the post's detail page before any form processing, and
otherwise proceeds (the inherited `OnlyAuthorMixin.test_func` then
passes) to save the edit. -/
def PostUpdateView.handle (db : DB) (userId pk : Nat) (edit : Post → Post) :
    MutResponse × DB :=
  match db.posts.find? (fun p => p.id == pk) with
  | none => (.notFound, db)
  | some instance_ =>
    if instance_.author != userId then
      (.redirectDetail pk, db)
    else
      let posts := db.posts.map (fun p => if p.id == pk then edit p else p)
      (.success, { db with posts := posts })

/-- `PostDeleteView` (`views.py` 121-128) handling a request by the
authenticated user `userId` on the post `pk`.  `OnlyAuthorMixin`
(`UserPassesTestMixin`, `views.py` 20-25) evaluates
`object.author == request.user` first; on failure
`handle_no_permission` raises `PermissionDenied` for an authenticated
user (a 403 page, not a redirect).  On success the delete cascades to
the post's comments. -/
def PostDeleteView.handle (db : DB) (userId pk : Nat) : MutResponse × DB :=
  match db.posts.find? (fun p => p.id == pk) with
  | none => (.notFound, db)
  | some object_ =>
    if object_.author != userId then
      (.forbidden, db)
    else
      (.success, Post.delete db pk)

/-- `CommentPostMixin.get_queryset` (`views.py` 48-49):
`self.request.user.comments.filter(author=self.request.user)` — the
requester's reverse relation, filtered (again) on authorship. -/
def CommentPostMixin.get_queryset (db : DB) (userId : Nat) : List Comment :=
  (db.comments.filter (fun c => c.author == userId)).filter
    (fun c => c.author == userId)

/-- `CommentUpdateView` (`views.py` 212-215) handling a request by the
authenticated user `userId` on comment `cid`, where `edit` is the
update the bound `CommentForm` would apply.  `get_object` looks `cid`
up inside `CommentPostMixin.get_queryset`, so a comment by another
author is simply not found (404). -/
def CommentUpdateView.handle (db : DB) (userId cid : Nat) (edit : Comment → Comment) :
    MutResponse × DB :=
  match (CommentPostMixin.get_queryset db userId).find? (fun c => c.id == cid) with
  | none => (.notFound, db)
  | some _ =>
    let comments := db.comments.map (fun c => if c.id == cid then edit c else c)
    (.success, { db with comments := comments })

/-- `CommentDeleteView` (`views.py` 218-221): same object resolution as
`CommentUpdateView`, deleting the comment on success. -/
def CommentDeleteView.handle (db : DB) (userId cid : Nat) : MutResponse × DB :=
  match (CommentPostMixin.get_queryset db userId).find? (fun c => c.id == cid) with
  | none => (.notFound, db)
  | some _ =>
    let comments := db.comments.filter (fun c => c.id != cid)
    (.success, { db with comments := comments })

/-- `ProfileUpdateView.get_object` (`views.py` 188-189):
`get_object_or_404(User, username=self.request.user.username)` — the
record is looked up by the requester's own username, never by a path
parameter. -/
def ProfileUpdateView.get_object (db : DB) (requester : User) : Option User :=
  db.users.find? (fun u => u.username == requester.username)

instance : IsTotal Post pubDateDesc :=
  ⟨by
    intro a b
    simp only [pubDateDesc, DateTime.le, Bool.or_eq_true, Bool.and_eq_true,
      Nat.blt_eq, Nat.ble_eq, beq_iff_eq]
    omega⟩

instance : IsTrans Post pubDateDesc :=
  ⟨by
    intro a b c hab hbc
    simp only [pubDateDesc, DateTime.le, Bool.or_eq_true, Bool.and_eq_true,
      Nat.blt_eq, Nat.ble_eq, beq_iff_eq] at hab hbc ⊢
    omega⟩

instance : IsTotal Comment createdAsc :=
  ⟨by
    intro a b
    simp only [createdAsc, DateTime.le, Bool.or_eq_true, Bool.and_eq_true,
      Nat.blt_eq, Nat.ble_eq, beq_iff_eq]
    omega⟩

instance : IsTrans Comment createdAsc :=
  ⟨by
    intro a b c hab hbc
    simp only [createdAsc, DateTime.le, Bool.or_eq_true, Bool.and_eq_true,
      Nat.blt_eq, Nat.ble_eq, beq_iff_eq] at hab hbc ⊢
    omega⟩

/-- A feed is in the order `order_by('-pub_date')` produces: each
record's publish datetime is no earlier than any later record's. -/
def feedSortedDesc (l : List (Post × Nat)) : Prop :=
  l.Pairwise (fun a b => DateTime.le b.1.pub_date a.1.pub_date = true)

/-! Concrete sample data, used to evaluate the program at specific
inputs. The clock is fixed at day 10, second 0. -/

def now10 : DateTime := ⟨10, 0⟩

def alice : User :=
  { id := 1, username := "alice", first_name := "A", last_name := "", email := "" }

def bob : User :=
  { id := 2, username := "bob", first_name := "B", last_name := "", email := "" }

def newsCat : Category :=
  { id := 1, title := "News", description := "", slug := "news",
    is_published := true, created_at := ⟨1, 0⟩ }

def oldCat : Category :=
  { id := 2, title := "Old", description := "", slug := "old",
    is_published := false, created_at := ⟨1, 0⟩ }

/-- Published in the past, published category: publicly visible. -/
def pastPost : Post :=
  { id := 1, title := "past", text := "", pub_date := ⟨5, 0⟩, author := 1,
    location := none, category := some 1, image := "",
    is_published := true, created_at := ⟨5, 0⟩ }

/-- `is_published = false`: a draft. -/
def draftPost : Post :=
  { id := 2, title := "draft", text := "", pub_date := ⟨5, 0⟩, author := 1,
    location := none, category := some 1, image := "",
    is_published := false, created_at := ⟨5, 0⟩ }

/-- `pub_date` on a future day: scheduled. -/
def futurePost : Post :=
  { id := 3, title := "future", text := "", pub_date := ⟨11, 0⟩, author := 1,
    location := none, category := some 1, image := "",
    is_published := true, created_at := ⟨5, 0⟩ }

/-- `pub_date` later on the current day: future time, current date. -/
def laterTodayPost : Post :=
  { id := 4, title := "later", text := "", pub_date := ⟨10, 3600⟩, author := 1,
    location := none, category := some 1, image := "",
    is_published := true, created_at := ⟨5, 0⟩ }

/-- Published in the past, but in the unpublished category. -/
def hiddenCatPost : Post :=
  { id := 5, title := "hidden", text := "", pub_date := ⟨5, 0⟩, author := 1,
    location := none, category := some 2, image := "",
    is_published := true, created_at := ⟨5, 0⟩ }

def comment1 : Comment :=
  { id := 1, text := "first", post := 1, author := 2,
    is_published := true, created_at := ⟨6, 0⟩ }

def comment2 : Comment :=
  { id := 2, text := "second", post := 1, author := 1,
    is_published := true, created_at := ⟨7, 0⟩ }

def sampleDB : DB :=
  { users := [alice, bob],
    categories := [newsCat, oldCat],
    locations := [],
    posts := [pastPost, draftPost, futurePost, laterTodayPost, hiddenCatPost],
    comments := [comment1, comment2] }

/-! Helper lemmas about the embedding. -/

theorem DateTime.le_iff {a b : DateTime} :
    DateTime.le a b = true ↔ a.day < b.day ∨ (a.day = b.day ∧ a.sec ≤ b.sec) := by
  simp [DateTime.le, Nat.blt_eq, Nat.ble_eq]

/-- `find?` on a key with no duplicates retrieves exactly the record
with that key, the semantics of `get_object_or_404` on a unique
column. -/
theorem find?_eq_of_key_nodup {α β : Type} [BEq β] [LawfulBEq β] (f : α → β) :
    ∀ (l : List α) (a : α), (l.map f).Nodup → a ∈ l →
      l.find? (fun x => f x == f a) = some a
  | [], a, _, ha => absurd ha (List.not_mem_nil a)
  | b :: t, a, hnd, ha => by
    rw [List.map_cons, List.nodup_cons] at hnd
    rcases List.mem_cons.mp ha with rfl | hat
    · exact List.find?_cons_of_pos _ (by simp)
    · have hne : (f b == f a) = false := by
        refine beq_eq_false_iff_ne.mpr (fun he => hnd.1 ?_)
        exact he ▸ List.mem_map_of_mem f hat
      rw [List.find?_cons_of_neg _ (by simp [hne])]
      exact find?_eq_of_key_nodup f t a hnd.2 hat

/-- Membership in an `annotated` queryset: the underlying records are
unchanged and each is paired with its comment count. -/
theorem mem_annotated {db : DB} {qs : List Post} {p : Post} {n : Nat} :
    (p, n) ∈ PostQuerySet.annotated db qs ↔ p ∈ qs ∧ n = commentCount db p := by
  simp only [PostQuerySet.annotated, sortByPubDateDesc, List.mem_map,
    List.mem_insertionSort, Prod.mk.injEq]
  constructor
  · rintro ⟨a, hmem, rfl, rfl⟩
    exact ⟨hmem, rfl⟩
  · rintro ⟨hmem, rfl⟩
    exact ⟨p, hmem, rfl, rfl⟩

/-- An `annotated` queryset is ordered by publish date descending. -/
theorem annotated_sorted (db : DB) (qs : List Post) :
    feedSortedDesc (PostQuerySet.annotated db qs) := by
  unfold feedSortedDesc PostQuerySet.annotated sortByPubDateDesc
  exact (List.sorted_insertionSort pubDateDesc qs).map _ (fun a b h => h)

/-- Membership in the public feed (`PostsListView.get_queryset`): the
`Post.published` manager filter conjoined with the view's extra
`is_published=True, pub_date__lte=now` filter, annotated with the
comment count. -/
theorem mem_postsList {db : DB} {now : DateTime} {p : Post} {n : Nat} :
    (p, n) ∈ PostsListView.get_queryset db now ↔
      p ∈ db.posts ∧ PostQuerySet.publishedFilter db now p = true ∧
        p.is_published = true ∧ p.pub_date.le now = true ∧
        n = commentCount db p := by
  rw [PostsListView.get_queryset, mem_annotated]
  simp only [List.mem_filter, Bool.and_eq_true]
  tauto

/-- With the author's username resolved, the profile feed is exactly
the author's posts, annotated. -/
theorem profile_feed_eq (db : DB) (author : User)
    (hfind : db.users.find? (fun u => u.username == author.username) = some author) :
    ProfileListView.get_queryset db author.username =
      some (PostQuerySet.annotated db
        (db.posts.filter (fun p => p.author == author.id))) := by
  unfold ProfileListView.get_queryset
  rw [hfind]

/-- C1: the claim states `PostQuerySet.published` returns exactly the
posts with `is_published = true AND pub_date <= now AND
category.is_published = true`.  It is false: the code's
`pub_date__date__lte=timezone.now()` lookup compares calendar dates
only, so at day 10 second 0 the query returns `laterTodayPost`, whose
publish datetime (day 10, second 3600) is strictly in the future. -/
theorem C1_counterexample :
    (laterTodayPost, 0) ∈ PostQuerySet.published sampleDB now10 sampleDB.posts ∧
    DateTime.le laterTodayPost.pub_date now10 = false := by decide

/-- C1 (amended): for every set of posts, `PostQuerySet.published`
returns exactly the posts satisfying `is_published = true` AND
`date(pub_date) <= date(now)` AND `category.is_published = true`, each
annotated with its comment count, ordered by publish date
descending. -/
theorem C1_published_exact (db : DB) (now : DateTime) (qs : List Post)
    (p : Post) (n : Nat) :
    ((p, n) ∈ PostQuerySet.published db now qs ↔
      p ∈ qs ∧ p.is_published = true ∧ p.pub_date.dateLe now = true ∧
        categoryIsPublished db p = true ∧ n = commentCount db p) ∧
    feedSortedDesc (PostQuerySet.published db now qs) := by
  constructor
  · rw [PostQuerySet.published, mem_annotated]
    simp only [List.mem_filter, PostQuerySet.publishedFilter, Bool.and_eq_true]
    tauto
  · exact annotated_sorted db _

/-- C7: deleting a Category keeps every post (same count), nulls the
`category` reference of exactly the posts that referenced it while
leaving all their other fields unchanged, and touches no comments;
deleting a Post removes exactly that post and exactly the comments
referencing it. -/
theorem C7_delete_semantics (db : DB) (cid pk : Nat) :
    ((Category.delete db cid).posts.length = db.posts.length ∧
     (∀ p ∈ db.posts, p.category = some cid →
        { p with category := none } ∈ (Category.delete db cid).posts) ∧
     (∀ p ∈ db.posts, p.category ≠ some cid → p ∈ (Category.delete db cid).posts) ∧
     (Category.delete db cid).comments = db.comments) ∧
    ((∀ c : Comment, c ∈ (Post.delete db pk).comments ↔
        c ∈ db.comments ∧ c.post ≠ pk) ∧
     (∀ p : Post, p ∈ (Post.delete db pk).posts ↔ p ∈ db.posts ∧ p.id ≠ pk)) := by
  refine ⟨⟨?_, ?_, ?_, rfl⟩, ?_, ?_⟩
  · simp [Category.delete]
  · intro p hp hpc
    simp only [Category.delete, List.mem_map]
    exact ⟨p, hp, by simp [hpc]⟩
  · intro p hp hpc
    simp only [Category.delete, List.mem_map]
    refine ⟨p, hp, ?_⟩
    rw [if_neg (by simpa using hpc)]
  · intro c
    simp [Post.delete, List.mem_filter, bne_iff_ne]
  · intro p
    simp [Post.delete, List.mem_filter, bne_iff_ne]

/-- C10: `ProfileUpdateView.get_object` looks the record up by the
requester's own username, so (usernames being unique) the record
selected for mutation is always the requesting user's own record. -/
theorem C10_profile_edit_selects_self (db : DB) (requester : User)
    (hwf : db.WellFormed) (hr : requester ∈ db.users) :
    ProfileUpdateView.get_object db requester = some requester :=
  find?_eq_of_key_nodup User.username db.users requester hwf.2.1 hr

/-- C10 witness: in the sample store, the profile-edit lookup for the
requester `alice` selects `alice`'s own record. -/
theorem C10_witness :
    sampleDB.WellFormed ∧ alice ∈ sampleDB.users ∧
    ProfileUpdateView.get_object sampleDB alice = some alice :=
  ⟨by decide, by decide,
    C10_profile_edit_selects_self sampleDB alice (by decide) (by decide)⟩

/-- C2: the claim states a profile feed shows only publicly visible
posts when the requesting identity is not the profile owner.  It is
false: `ProfileListView.get_queryset` never consults the requesting
identity, so for the requester `bob` (not the owner `alice`) the feed
of `alice` still contains `draftPost`, which violates the
public-visibility invariant (`is_published = false`). -/
theorem C2_counterexample :
    bob.id ≠ alice.id ∧
    (draftPost, 0) ∈ (ProfileListView.get_queryset sampleDB alice.username).getD [] ∧
    PostQuerySet.publishedFilter sampleDB now10 draftPost = false := by decide

/-- C2 (amended): for every profile-feed request, the feed contains all
of that author's posts (each annotated with its comment count),
regardless of the requesting identity. -/
theorem C2_profile_feed_all_posts (db : DB) (username : String) (author : User)
    (p : Post) (n : Nat)
    (hwf : db.WellFormed) (ha : author ∈ db.users)
    (hname : author.username = username) :
    (p, n) ∈ (ProfileListView.get_queryset db username).getD [] ↔
      p ∈ db.posts ∧ p.author = author.id ∧ n = commentCount db p := by
  subst hname
  rw [profile_feed_eq db author
    (find?_eq_of_key_nodup User.username db.users author hwf.2.1 ha)]
  rw [Option.getD_some, mem_annotated]
  simp only [List.mem_filter, beq_iff_eq]
  tauto

/-- C2 witness: instantiating the amended statement on the sample
store for `alice`'s own draft post. -/
theorem C2_witness :
    sampleDB.WellFormed ∧ alice ∈ sampleDB.users ∧ alice.username = "alice" ∧
    ((draftPost, 0) ∈ (ProfileListView.get_queryset sampleDB "alice").getD [] ↔
      draftPost ∈ sampleDB.posts ∧ draftPost.author = alice.id ∧
        0 = commentCount sampleDB draftPost) :=
  ⟨by decide, by decide, rfl,
    C2_profile_feed_all_posts sampleDB "alice" alice draftPost 0
      (by decide) (by decide) rfl⟩

/-- C3: the claim states that a non-author's edit or delete request on
a post is answered with a redirect to the post's detail page.  It is
false for deletion: `PostDeleteView` relies on `OnlyAuthorMixin`
(`UserPassesTestMixin`), whose failure raises `PermissionDenied` (a 403
error page) for an authenticated non-author — here `bob` deleting
`alice`'s `pastPost` — though the store is indeed unchanged. -/
theorem C3_counterexample :
    pastPost ∈ sampleDB.posts ∧ pastPost.author ≠ bob.id ∧
    PostDeleteView.handle sampleDB bob.id pastPost.id =
      (MutResponse.forbidden, sampleDB) ∧
    (PostDeleteView.handle sampleDB bob.id pastPost.id).1 ≠
      MutResponse.redirectDetail pastPost.id := by decide

/-- C3 (amended): for every edit request on a Post by an authenticated
non-author the response is a redirect to that post's detail page, and
for every delete request by an authenticated non-author the response is
a permission-denied error; in both cases the store is unchanged. -/
theorem C3_nonauthor_post_mutation (db : DB) (userId pk : Nat) (post : Post)
    (edit : Post → Post)
    (hfind : db.posts.find? (fun p => p.id == pk) = some post)
    (hne : post.author ≠ userId) :
    PostUpdateView.handle db userId pk edit = (MutResponse.redirectDetail pk, db) ∧
    PostDeleteView.handle db userId pk = (MutResponse.forbidden, db) := by
  have hb : (post.author != userId) = true := bne_iff_ne.mpr hne
  unfold PostUpdateView.handle PostDeleteView.handle
  rw [hfind]
  simp [hb]

/-- C3 witness: instantiating the amended statement for `bob` acting
on `alice`'s post in the sample store. -/
theorem C3_witness :
    sampleDB.posts.find? (fun p => p.id == pastPost.id) = some pastPost ∧
    pastPost.author ≠ bob.id ∧
    (PostUpdateView.handle sampleDB bob.id pastPost.id id =
        (MutResponse.redirectDetail pastPost.id, sampleDB) ∧
      PostDeleteView.handle sampleDB bob.id pastPost.id =
        (MutResponse.forbidden, sampleDB)) :=
  ⟨by decide, by decide,
    C3_nonauthor_post_mutation sampleDB bob.id pastPost.id pastPost id
      (by decide) (by decide)⟩

/-- C4: the claim states a non-author's edit or delete request on a
comment is redirected to the record's detail view rather than
terminating with an error page.  It is false: `CommentPostMixin`
restricts the queryset to the requester's own comments, so `bob`
editing or deleting `alice`'s `comment2` terminates with a 404
not-found error (the store is indeed unchanged). -/
theorem C4_counterexample :
    comment2 ∈ sampleDB.comments ∧ comment2.author ≠ bob.id ∧
    CommentUpdateView.handle sampleDB bob.id comment2.id (fun c => c) =
      (MutResponse.notFound, sampleDB) ∧
    CommentDeleteView.handle sampleDB bob.id comment2.id =
      (MutResponse.notFound, sampleDB) := by decide

/-- C4 (amended): for every edit or delete request on a Comment by an
authenticated user who is not the comment's author, the operation does
not succeed: the request terminates with a not-found response and the
store is unchanged. -/
theorem C4_nonauthor_comment_mutation (db : DB) (userId cid : Nat)
    (comment : Comment) (edit : Comment → Comment)
    (hwf : db.WellFormed) (hc : comment ∈ db.comments) (hid : comment.id = cid)
    (hne : comment.author ≠ userId) :
    CommentUpdateView.handle db userId cid edit = (MutResponse.notFound, db) ∧
    CommentDeleteView.handle db userId cid = (MutResponse.notFound, db) := by
  have hnone :
      (CommentPostMixin.get_queryset db userId).find? (fun c => c.id == cid) = none := by
    rw [List.find?_eq_none]
    intro x hx hpx
    simp only [CommentPostMixin.get_queryset, List.mem_filter, beq_iff_eq] at hx
    have hxid : x.id = comment.id := by rw [hid]; simpa using hpx
    have hxc : x = comment :=
      List.inj_on_of_nodup_map hwf.2.2.2.2.2 hx.1.1 hc hxid
    exact hne (hxc ▸ hx.1.2)
  unfold CommentUpdateView.handle CommentDeleteView.handle
  rw [hnone]
  exact ⟨rfl, rfl⟩

/-- C4 witness: instantiating the amended statement for `bob` acting
on `alice`'s comment in the sample store. -/
theorem C4_witness :
    sampleDB.WellFormed ∧ comment2 ∈ sampleDB.comments ∧
    comment2.id = 2 ∧ comment2.author ≠ bob.id ∧
    (CommentUpdateView.handle sampleDB bob.id 2 id =
        (MutResponse.notFound, sampleDB) ∧
      CommentDeleteView.handle sampleDB bob.id 2 =
        (MutResponse.notFound, sampleDB)) :=
  ⟨by decide, by decide, rfl, by decide,
    C4_nonauthor_comment_mutation sampleDB bob.id 2 comment2 id
      (by decide) (by decide) rfl (by decide)⟩

/-- C5: a post whose publish datetime is in the future is absent from
the public feed and from every category feed (both apply the full
`pub_date__lte=now` filter), but present in its author's profile feed
(which applies no visibility filter at all, in particular when the
author views their own profile). -/
theorem C5_future_post_visibility (db : DB) (now : DateTime) (p : Post)
    (author : User)
    (hwf : db.WellFormed) (hp : p ∈ db.posts)
    (hfut : DateTime.le p.pub_date now = false)
    (ha : author ∈ db.users) (haid : p.author = author.id) :
    (∀ n, (p, n) ∉ PostsListView.get_queryset db now) ∧
    (∀ slug feed, CategoryPostsView.get_queryset db now slug = some feed →
      ∀ n, (p, n) ∉ feed) ∧
    (p, commentCount db p) ∈
      (ProfileListView.get_queryset db author.username).getD [] := by
  refine ⟨?_, ?_, ?_⟩
  · intro n hmem
    rw [mem_postsList] at hmem
    rw [hfut] at hmem
    exact Bool.false_ne_true hmem.2.2.2.1
  · intro slug feed hfeed n hmem
    unfold CategoryPostsView.get_queryset at hfeed
    split at hfeed
    · cases hfeed
    · injection hfeed with hfeed
      subst hfeed
      rw [mem_annotated] at hmem
      have hmf := (List.mem_filter.mp hmem.1).2
      simp only [Bool.and_eq_true, hfut] at hmf
      exact Bool.false_ne_true hmf.2
  · rw [profile_feed_eq db author
      (find?_eq_of_key_nodup User.username db.users author hwf.2.1 ha)]
    rw [Option.getD_some, mem_annotated]
    exact ⟨List.mem_filter.mpr ⟨hp, by simp [haid]⟩, rfl⟩

/-- C5 witness: in the sample store at day 10, `futurePost`
(published on day 11) is hidden from the public and category feeds but
shown in `alice`'s profile feed. -/
theorem C5_witness :
    sampleDB.WellFormed ∧ futurePost ∈ sampleDB.posts ∧
    DateTime.le futurePost.pub_date now10 = false ∧
    alice ∈ sampleDB.users ∧ futurePost.author = alice.id ∧
    ((∀ n, (futurePost, n) ∉ PostsListView.get_queryset sampleDB now10) ∧
     (∀ slug feed, CategoryPostsView.get_queryset sampleDB now10 slug = some feed →
        ∀ n, (futurePost, n) ∉ feed) ∧
     (futurePost, commentCount sampleDB futurePost) ∈
       (ProfileListView.get_queryset sampleDB alice.username).getD []) :=
  ⟨by decide, by decide, by decide, by decide, by decide,
    C5_future_post_visibility sampleDB now10 futurePost alice
      (by decide) (by decide) (by decide) (by decide) (by decide)⟩

/-- C6: a post whose category is unpublished is absent from the public
feed, whatever its own flag and publish datetime: the
`category__is_published=True` lookup in `PostQuerySet.published`
rejects it. -/
theorem C6_unpublished_category_hidden (db : DB) (now : DateTime) (p : Post)
    (c : Category)
    (hwf : db.WellFormed) (hc : c ∈ db.categories) (hpc : p.category = some c.id)
    (hunpub : c.is_published = false) :
    ∀ n, (p, n) ∉ PostsListView.get_queryset db now := by
  intro n hmem
  rw [mem_postsList] at hmem
  have hpf := hmem.2.1
  rw [PostQuerySet.publishedFilter, Bool.and_eq_true] at hpf
  have hcat := hpf.2
  have hfind : db.categories.find? (fun x => x.id == c.id) = some c :=
    find?_eq_of_key_nodup Category.id db.categories c hwf.2.2.1 hc
  simp only [categoryIsPublished, hpc, hfind, hunpub] at hcat
  exact Bool.false_ne_true hcat

/-- C6 witness: in the sample store, `hiddenCatPost` (itself published,
past-dated, but in the unpublished category `oldCat`) is absent from
the public feed. -/
theorem C6_witness :
    sampleDB.WellFormed ∧ oldCat ∈ sampleDB.categories ∧
    hiddenCatPost.category = some oldCat.id ∧ oldCat.is_published = false ∧
    ∀ n, (hiddenCatPost, n) ∉ PostsListView.get_queryset sampleDB now10 :=
  ⟨by decide, by decide, rfl, by decide,
    C6_unpublished_category_hidden sampleDB now10 hiddenCatPost oldCat
      (by decide) (by decide) rfl (by decide)⟩

/-- C8: the detail-page comment list is ordered by creation time
ascending (and is a permutation of the post's comments), and each feed
(public, category, profile) is ordered by publish date descending. -/
theorem C8_ordering (db : DB) (now : DateTime) (pk : Nat) (slug username : String) :
    ((PostDetailView.context_comments db pk).Pairwise createdAsc ∧
     (PostDetailView.context_comments db pk).Perm
       (db.comments.filter (fun c => c.post == pk))) ∧
    feedSortedDesc (PostsListView.get_queryset db now) ∧
    (∀ feed, CategoryPostsView.get_queryset db now slug = some feed →
      feedSortedDesc feed) ∧
    (∀ feed, ProfileListView.get_queryset db username = some feed →
      feedSortedDesc feed) := by
  refine ⟨⟨?_, ?_⟩, ?_, ?_, ?_⟩
  · exact List.sorted_insertionSort createdAsc _
  · exact List.perm_insertionSort createdAsc _
  · exact annotated_sorted db _
  · intro feed hfeed
    unfold CategoryPostsView.get_queryset at hfeed
    split at hfeed
    · cases hfeed
    · injection hfeed with hfeed
      subst hfeed
      exact annotated_sorted db _
  · intro feed hfeed
    unfold ProfileListView.get_queryset at hfeed
    split at hfeed
    · cases hfeed
    · injection hfeed with hfeed
      subst hfeed
      exact annotated_sorted db _

/-- C9: a category feed request whose slug names an existing but
unpublished category terminates with a 404: the queryset itself
resolves (it does not filter on the category's flag), but
`get_context_data`'s `get_object_or_404(..., is_published=True)` raises
before any page is rendered. -/
theorem C9_unpublished_category_404 (db : DB) (now : DateTime) (slug : String)
    (c : Category)
    (hwf : db.WellFormed) (hc : c ∈ db.categories) (hslug : c.slug = slug)
    (hunpub : c.is_published = false) :
    CategoryPostsView.get db now slug = CategoryResponse.notFound ∧
    CategoryPostsView.get_queryset db now slug ≠ none := by
  subst hslug
  have hfind : db.categories.find? (fun x => x.slug == c.slug) = some c :=
    find?_eq_of_key_nodup Category.slug db.categories c hwf.2.2.2.1 hc
  have hfind2 :
      db.categories.find? (fun x => x.slug == c.slug && x.is_published) = none := by
    rw [List.find?_eq_none]
    intro x hx hpx
    rw [Bool.and_eq_true, beq_iff_eq] at hpx
    have hxc : x = c := List.inj_on_of_nodup_map hwf.2.2.2.1 hx hc hpx.1
    rw [hxc, hunpub] at hpx
    exact Bool.false_ne_true hpx.2
  have hqs : CategoryPostsView.get_queryset db now c.slug =
      some (PostQuerySet.annotated db (db.posts.filter
        (fun p => p.category == some c.id && p.is_published && p.pub_date.le now))) := by
    unfold CategoryPostsView.get_queryset
    rw [hfind]
  refine ⟨?_, by rw [hqs]; simp⟩
  unfold CategoryPostsView.get
  rw [hqs, hfind2]

/-- C9 witness: in the sample store, requesting the feed of the
unpublished category `old` yields a 404 although its queryset
resolves. -/
theorem C9_witness :
    sampleDB.WellFormed ∧ oldCat ∈ sampleDB.categories ∧ oldCat.slug = "old" ∧
    oldCat.is_published = false ∧
    (CategoryPostsView.get sampleDB now10 "old" = CategoryResponse.notFound ∧
     CategoryPostsView.get_queryset sampleDB now10 "old" ≠ none) :=
  ⟨by decide, by decide, rfl, by decide,
    C9_unpublished_category_404 sampleDB now10 "old" oldCat
      (by decide) (by decide) rfl (by decide)⟩
